import Mathlib

/-!
# Verification of the gopgsqldriver adapter (pgdriver.go)

Shallow embedding of `src/github.com/jbarham/gopgsqldriver/pgdriver.go`.

Modelling conventions:
* Native libpq handles (`*C.PGconn`, `*C.PGresult`) are opaque identifiers
  (`Nat`); a Go pointer field that can be `nil` is an `Option Nat`.
* Every operation that calls `PQclear`/`PQfinish` additionally returns the
  list of handle identifiers it released during the call, so that the
  resource-release behaviour of each code path is visible in the model.
* The server side is abstracted as the data the C calls would return:
  `PQresultErrorMessage` is a `String` (`""` = no error), `PQcmdTuples` is a
  `String`, and a materialized result is a row-major list of cells, each cell
  carrying its null flag (`PQgetisnull`), raw text (`PQgetvalue`) and the
  column's type OID (`PQftype`).
* Go strings are modelled as `List Char` where character-level processing
  matters (hex codec, prefix checks) and as `String` elsewhere.
* `runtime.SetFinalizer(x, f)` / `runtime.SetFinalizer(x, nil)` is modelled
  as a Boolean field `finalizerArmed` on the owning value.
-/

namespace PgDriver

/-! ## Type OID constants

Modelled from the spec: the Go source file declaring the numeric OID
constants (`BOOLOID`, `BYTEAOID`, ...) is not under `src/`; only
`pgdriver.go`, which references them by name, is.  Per the spec's external
interface section these are the native library's well-known numeric type-OID
constants, "reproduced verbatim (same numeric values)", i.e. the standard
PostgreSQL catalog OIDs. -/

def BOOLOID : Nat := 16
def BYTEAOID : Nat := 17
def CHAROID : Nat := 18
def INT8OID : Nat := 20
def INT2OID : Nat := 21
def INT4OID : Nat := 23
def TEXTOID : Nat := 25
def OIDOID : Nat := 26
def XIDOID : Nat := 28
def FLOAT4OID : Nat := 700
def FLOAT8OID : Nat := 701
def BPCHAROID : Nat := 1042
def VARCHAROID : Nat := 1043
def DATEOID : Nat := 1082
def TIMEOID : Nat := 1083
def TIMESTAMPOID : Nat := 1114
def TIMESTAMPTZOID : Nat := 1184
def INTERVALOID : Nat := 1186
def TIMETZOID : Nat := 1266
def NUMERICOID : Nat := 1700

/-! ## Hex codec (Go `encoding/hex`)

`hex.EncodeToString` emits two lowercase hex digits per byte;
`hex.DecodeString` accepts digits `0-9`, `a-f`, `A-F`, fails on any other
character and on odd-length input. -/

/-- The lowercase hex digit for a value `n < 16` (Go `hextable[n]`): code
point 48 (`0`) upward for values below ten, code point 97 (`a`) upward for
the rest. -/
def hexChar (n : Nat) : Char :=
  if n < 10 then Char.ofNat (48 + n) else Char.ofNat (87 + n)

/-- `hex.EncodeToString` on a byte list: two lowercase digits per byte. -/
def hexEncodeChars : List Nat → List Char
  | [] => []
  | b :: bs => hexChar (b / 16) :: hexChar (b % 16) :: hexEncodeChars bs

/-- Go `encoding/hex.fromHexChar`: value of one hex digit, `none` if the
character is not a hex digit.  Written on code points: 48–57 are `0`–`9`,
97–102 are `a`–`f`, 65–70 are `A`–`F`. -/
def fromHexChar (c : Char) : Option Nat :=
  if 48 ≤ c.toNat ∧ c.toNat ≤ 57 then some (c.toNat - 48)
  else if 97 ≤ c.toNat ∧ c.toNat ≤ 102 then some (c.toNat - 87)
  else if 65 ≤ c.toNat ∧ c.toNat ≤ 70 then some (c.toNat - 55)
  else none

/-- `hex.DecodeString` on a character list: decodes digit pairs, fails on an
odd-length input or a non-digit character. -/
def hexDecodeChars : List Char → Option (List Nat)
  | [] => some []
  | [_] => none
  | c1 :: c2 :: rest =>
    match fromHexChar c1, fromHexChar c2, hexDecodeChars rest with
    | some hi, some lo, some tl => some ((hi * 16 + lo) :: tl)
    | _, _, _ => none

/-! ## Host values crossing the boundary -/

/-- A Go `interface{}` value as this driver produces or consumes it:
a string, a `[]byte` (byte list), or `nil`. -/
inductive GoValue
  | str (s : String)
  | bytes (bs : List Nat)
  | goNil
deriving DecidableEq, Repr

/-- One inbound cell as seen through libpq: `PQgetisnull`, `PQgetvalue`
(raw wire text) and `PQftype` (the column's type OID). -/
structure Cell where
  isNull : Bool
  val : List Char
  oid : Nat
deriving DecidableEq, Repr

/-- Placeholder cell for out-of-range indexing in the model. -/
def defaultCell : Cell := ⟨true, [], 0⟩

/-- `argErr(i, argType, err)` from pgdriver.go:
`fmt.Sprintf("arg %d as %s: %s", i, argType, err)`. -/
def argErr (i : Nat) (argType : String) (e : String) : String :=
  "arg " ++ toString i ++ " as " ++ argType ++ ": " ++ e

/-- `resultError(res)`: `nil` when `PQresultErrorMessage` is empty, otherwise
an error `"result error: " ++ msg`.  Modelled on the message string. -/
def resultError (errMsg : String) : Option String :=
  if errMsg = "" then none else some ("result error: " ++ errMsg)

/-- True exactly for the OIDs of the pass-through arm of the decode switch in
`driverRows.Next` (char/string/numeric/date/time/interval classes). -/
def passOid (oid : Nat) : Bool :=
  oid = CHAROID || oid = BPCHAROID || oid = VARCHAROID || oid = TEXTOID ||
  oid = INT2OID || oid = INT4OID || oid = INT8OID || oid = OIDOID ||
  oid = XIDOID || oid = FLOAT8OID || oid = FLOAT4OID ||
  oid = DATEOID || oid = TIMEOID || oid = TIMESTAMPOID ||
  oid = TIMESTAMPTZOID || oid = INTERVALOID || oid = TIMETZOID ||
  oid = NUMERICOID

/-- The per-cell body of the loop in `driverRows.Next` for destination slot
`i`: the null check, then the switch on `PQftype`. -/
def decodeCell (i : Nat) (cell : Cell) : Except String GoValue :=
  if cell.isNull then .ok .goNil
  else if cell.oid = BOOLOID then
    .ok (.str (if cell.val = ['t'] then "true" else "false"))
  else if cell.oid = BYTEAOID then
    match cell.val with
    | '\\' :: 'x' :: rest =>
      match hexDecodeChars rest with
      | some buf => .ok (.bytes buf)
      | none => .error (argErr i "[]byte" "hex decode error")
    | _ => .error (argErr i "[]byte" "invalid byte string format")
  else if passOid cell.oid then .ok (.str (String.mk cell.val))
  else .error ("unsupported type oid: " ++ toString cell.oid)

/-- The whole destination loop of `driverRows.Next`: walks the destination
slots left to right, overwriting slot `i` with the decoded cell `i` of the
current row; on the first failing cell it stops, leaving that slot and all
later slots untouched, and reports the error message. -/
def decodeCells : Nat → List Cell → List GoValue → List GoValue × Option String
  | _, _, [] => ([], none)
  | i, row, d :: ds =>
    match decodeCell i (row.getD i defaultCell) with
    | .ok v =>
      let rest := decodeCells (i + 1) row ds
      (v :: rest.1, rest.2)
    | .error msg => (d :: ds, some msg)

/-! ## ResultSet (`driverRows`) -/

/-- The outcome of one `driverRows.Next` call: `nil` (a row was delivered),
`os.EOF` (cursor exhausted), or an error message. -/
inductive NextStatus
  | ok
  | eof
  | err (msg : String)
deriving DecidableEq, Repr

/-- The `driverRows` struct.  `res` is the native result handle (`none` once
released); `rows` is the materialized data the handle refers to, so that
`PQntuples`/`PQgetvalue`/`PQgetisnull`/`PQftype` can be answered. -/
structure DriverRows where
  res : Option Nat
  nrows : Int
  currRow : Int
  ncols : Nat
  cols : Option (List String)
  rows : List (List Cell)
deriving DecidableEq, Repr

/-- `finalizerArmed`: whether `runtime.SetFinalizer` is currently set on the
value (armed at creation, disarmed by `Close`). -/
structure RowsState where
  r : DriverRows
  finalizerArmed : Bool
deriving DecidableEq, Repr

/-- `newResult(res)`: reads `PQnfields`/`PQntuples`, starts the cursor at
`-1`, leaves the column cache nil, and arms the finalizer. -/
def newResult (data : List (List Cell)) (ncols : Nat) (h : Nat) : RowsState :=
  ⟨⟨some h, (data.length : Int), -1, ncols, none, data⟩, true⟩

/-- `driverRows.Next(dest)`: increments the cursor, returns `os.EOF` once the
cursor reaches the row count, otherwise decodes the current row into the
destination slots.  Returns the new struct, the destination slice after the
call, and the call's status. -/
def next (r : DriverRows) (dest : List GoValue) :
    DriverRows × List GoValue × NextStatus :=
  let r2 : DriverRows := { r with currRow := r.currRow + 1 }
  if r2.currRow ≥ r.nrows then (r2, dest, .eof)
  else
    let row := r.rows.getD r2.currRow.toNat []
    let out := decodeCells 0 row dest
    match out.2 with
    | none => (r2, out.1, .ok)
    | some m => (r2, out.1, .err m)

/-- `driverRows.Close`: if `r.res != nil`, clears the handle, sets the field
to nil and disarms the finalizer; always returns nil error.  The second
component lists the handles released by the call. -/
def rowsClose (s : RowsState) : RowsState × List Nat :=
  match s.r.res with
  | some h => (⟨{ s.r with res := none }, false⟩, [h])
  | none => (s, [])

/-- Iterate `next` with the same destination slice, keeping only the evolving
`driverRows` state (the struct's evolution does not depend on the decode
outcomes). -/
def stepN (dest : List GoValue) : Nat → DriverRows → DriverRows
  | 0, r => r
  | m + 1, r => stepN dest m (next r dest).1

/-! ## Connection (`driverConn`) -/

/-- The `driverConn` struct plus its finalizer flag: native session handle
(`none` once released) and the monotonic statement-name counter. -/
structure DriverConn where
  db : Option Nat
  stmtNum : Nat
  finalizerArmed : Bool
deriving DecidableEq, Repr

/-- `driverConn.Close`: if `c.db != nil`, calls `PQfinish`, sets the field to
nil and disarms the finalizer; always returns nil error. -/
def connClose (c : DriverConn) : DriverConn × List Nat :=
  match c.db with
  | some h => (⟨none, c.stmtNum, false⟩, [h])
  | none => (c, [])

/-! ## Command execution (`driverConn.Exec`, `driverStmt.Exec`)

The server's response to one command is abstracted as the two strings the
code reads from the `PGresult`: `PQresultErrorMessage` and `PQcmdTuples`.
The fresh `PGresult` handle of the call is passed in as `h`. -/

/-- The data `driverConn.Exec`/`driverStmt.Exec` read from the command's
`PGresult`. -/
structure ExecResponse where
  errMsg : String
  cmdTuples : String
deriving DecidableEq, Repr

/-- A `driver.Result`: `driver.RowsAffected(n)` or the `driver.DDLSuccess`
sentinel. -/
inductive DriverResult
  | rowsAffected (n : Int)
  | ddlSuccess
deriving DecidableEq, Repr

/-- Digit-string accumulator for `strconv.Atoi64` (code points 48–57 are the
decimal digits). -/
def parseDigitsAux : List Char → Nat → Option Nat
  | [], acc => some acc
  | c :: cs, acc =>
    if 48 ≤ c.toNat ∧ c.toNat ≤ 57 then
      parseDigitsAux cs (acc * 10 + (c.toNat - 48))
    else none

/-- Nonempty all-digit string to `Nat`; `none` on empty or non-digit input. -/
def parseDigits : List Char → Option Nat
  | [] => none
  | cs => parseDigitsAux cs 0

/-- `strconv.Atoi64` (`ParseInt(s, 10, 64)`): optional sign, decimal digits,
64-bit signed range check; empty or malformed input is an error. -/
def atoi64 (s : String) : Except String Int :=
  let body : Bool × List Char :=
    match s.data with
    | '-' :: rest => (true, rest)
    | '+' :: rest => (false, rest)
    | cs => (false, cs)
  match parseDigits body.2 with
  | none => .error ("parsing " ++ s ++ ": invalid syntax")
  | some n =>
    if body.1 then
      if n ≤ 2 ^ 63 then .ok (-(n : Int))
      else .error ("parsing " ++ s ++ ": value out of range")
    else
      if n < 2 ^ 63 then .ok (n : Int)
      else .error ("parsing " ++ s ++ ": value out of range")

/-- `driverConn.Exec` after the `c.exec` send: on a result error, clears the
handle and returns the error; otherwise reads `PQcmdTuples` — empty means
`driver.DDLSuccess`, else the count is parsed with `strconv.Atoi64` (the
deferred `PQclear` releases the handle on every one of these paths). -/
def connExec (resp : ExecResponse) (h : Nat) :
    Except String DriverResult × List Nat :=
  match resultError resp.errMsg with
  | some e => (.error e, [h])
  | none =>
    if resp.cmdTuples = "" then (.ok .ddlSuccess, [h])
    else
      match atoi64 resp.cmdTuples with
      | .ok n => (.ok (.rowsAffected n), [h])
      | .error e => (.error e, [h])

/-- `driverStmt.Exec` after the `s.exec` send: on a result error, clears the
handle and returns the error; otherwise parses `PQcmdTuples` with
`strconv.Atoi64` directly — there is no empty-count check. -/
def stmtExec (resp : ExecResponse) (h : Nat) :
    Except String DriverResult × List Nat :=
  match resultError resp.errMsg with
  | some e => (.error e, [h])
  | none =>
    match atoi64 resp.cmdTuples with
    | .ok n => (.ok (.rowsAffected n), [h])
    | .error e => (.error e, [h])

/-! ## Statement (`driverStmt`) -/

/-- The `driverStmt` struct plus its finalizer flag.  `res` is the prepare
step's `PGresult` handle stored in the struct; note that `driverStmt.Close`
never sets this field to nil. -/
structure DriverStmt where
  name : String
  res : Option Nat
  nparams : Nat
  finalizerArmed : Bool
deriving DecidableEq, Repr

/-- `driverStmt.Close`: if `s.res != nil`, calls `PQclear(s.res)` and disarms
the finalizer — but does NOT set `s.res` to nil (faithful to the source);
always returns nil error. -/
def stmtClose (s : DriverStmt) : DriverStmt × List Nat :=
  match s.res with
  | some h => (⟨s.name, s.res, s.nparams, false⟩, [h])
  | none => (s, [])

/-! ## `driverConn.Prepare` -/

/-- The server behaviour seen by one `Prepare` call: the error message of the
`PQprepare` result, the error message of the `PQdescribePrepared` result, and
`PQnparams` of the describe result. -/
structure PrepareServer where
  prepareErrMsg : String
  describeErrMsg : String
  nparams : Nat
deriving DecidableEq, Repr

/-- `driverConn.Prepare`: allocates the next statement name (the counter is
incremented unconditionally), runs `PQprepare` (fresh handle `hPrep`) and on
success `PQdescribePrepared` (fresh handle `hDesc`).  A prepare failure
clears `hPrep` and aborts; a describe failure clears `hDesc` and aborts
(leaving `hPrep` unreleased); on success the deferred clear releases `hDesc`
and `hPrep` is stored in the returned `driverStmt`.  Returns the updated
connection, the outcome, and the handles released during the call. -/
def prepare (c : DriverConn) (srv : PrepareServer) (hPrep hDesc : Nat) :
    DriverConn × Except String DriverStmt × List Nat :=
  let stmtname := toString c.stmtNum
  let c2 : DriverConn := { c with stmtNum := c.stmtNum + 1 }
  match resultError srv.prepareErrMsg with
  | some e => (c2, .error e, [hPrep])
  | none =>
    match resultError srv.describeErrMsg with
    | some e => (c2, .error e, [hDesc])
    | none => (c2, .ok ⟨stmtname, some hPrep, srv.nparams, true⟩, [hDesc])

/-! ## Outbound parameter encoding (`buildCArgs`) -/

/-- One outbound parameter, by the host-side shape `buildCArgs` switches on.
A `*time.Time` argument is represented by the text `v.Format(timeFormat)`
would produce, and the default arm by the text `fmt.Sprint(v)` would
produce. -/
inductive GoParam
  | bytes (bs : List Nat)
  | boolean (b : Bool)
  | timeValue (formatted : List Char)
  | other (printed : List Char)
deriving DecidableEq, Repr

/-- The per-parameter body of `buildCArgs`: the wire text for one bound
value. -/
def encodeParam : GoParam → List Char
  | .bytes bs => '\\' :: 'x' :: hexEncodeChars bs
  | .boolean b => if b then ['t'] else ['f']
  | .timeValue formatted => formatted
  | .other printed => printed

/-! ## Helper lemmas -/

/-- Each value below 16 survives the hex digit round trip. -/
theorem fromHexChar_hexChar : ∀ n < 16, fromHexChar (hexChar n) = some n := by
  decide

/-- Decoding the hex encoding of a byte list gives the bytes back. -/
theorem hexDecode_hexEncode (bs : List Nat) (hb : ∀ b ∈ bs, b < 256) :
    hexDecodeChars (hexEncodeChars bs) = some bs := by
  induction bs with
  | nil => rfl
  | cons b tl ih =>
    have hb0 : b < 256 := hb b (List.mem_cons_self b tl)
    have h1 : b / 16 < 16 := by omega
    have h2 : b % 16 < 16 := Nat.mod_lt _ (by norm_num)
    have htl := ih (fun x hx => hb x (List.mem_cons_of_mem _ hx))
    simp only [hexEncodeChars, hexDecodeChars, fromHexChar_hexChar _ h1,
      fromHexChar_hexChar _ h2, htl]
    have hbb : b / 16 * 16 + b % 16 = b := by omega
    rw [hbb]

/-- Claim C2: encoding any byte sequence with the outbound byte-array rule
(`\x` + lowercase hex, the `[]byte` arm of `buildCArgs`) and decoding the
resulting text with the inbound byte-array rule (the `BYTEAOID` arm of
`driverRows.Next`) yields the original byte sequence, for every slot index
and every byte sequence, including the empty one. -/
theorem byteaRoundTrip (i : Nat) (bs : List Nat) (hb : ∀ b ∈ bs, b < 256) :
    decodeCell i ⟨false, encodeParam (.bytes bs), BYTEAOID⟩ =
      .ok (.bytes bs) := by
  simp [decodeCell, encodeParam, BYTEAOID, BOOLOID, hexDecode_hexEncode bs hb]

/-- Witness for C2 at the bytes `[0, 171, 255]` (and implicitly at `[]`,
which the same theorem covers). -/
theorem byteaRoundTrip_witness :
    decodeCell 0 ⟨false, encodeParam (.bytes [0, 171, 255]), BYTEAOID⟩ =
      .ok (.bytes [0, 171, 255]) :=
  byteaRoundTrip 0 [0, 171, 255] (by decide)

/-- Claim C9: a non-null cell whose type OID is not `BOOLOID`, not
`BYTEAOID`, and not one of the pass-through OIDs decodes to an error whose
message names the offending numeric identifier. -/
theorem unsupportedOidRejected (i : Nat) (cell : Cell)
    (hnull : cell.isNull = false) (hb : cell.oid ≠ BOOLOID)
    (hy : cell.oid ≠ BYTEAOID) (hp : passOid cell.oid = false) :
    decodeCell i cell = .error ("unsupported type oid: " ++ toString cell.oid) := by
  simp [decodeCell, hnull, hb, hy, hp]

/-- Witness for C9 at OID 999. -/
theorem unsupportedOidRejected_witness :
    decodeCell 0 ⟨false, ['a'], 999⟩ =
      .error ("unsupported type oid: " ++ toString (999 : Nat)) :=
  unsupportedOidRejected 0 ⟨false, ['a'], 999⟩ rfl (by decide) (by decide)
    (by decide)

/-- Claim C6: a null cell decodes to the `nil` sentinel before any type
dispatch — for every slot index, every raw text and every OID (supported or
not) — and through `Next` a null cell assigns `nil` to its destination
slot with the call succeeding. -/
theorem nullYieldsNil (i oid h : Nat) (val : List Char) (d : GoValue) :
    decodeCell i ⟨true, val, oid⟩ = .ok .goNil
    ∧ (next (newResult [[⟨true, val, oid⟩]] 1 h).r [d]).2 =
        ([GoValue.goNil], NextStatus.ok) := by
  constructor
  · simp [decodeCell]
  · simp [next, newResult, decodeCells, decodeCell, defaultCell]

/-- Claim C1 (code bug): double Close releases nothing further on a
Connection and on a ResultSet, but on a Statement the second Close releases
the native result handle a second time, because `driverStmt.Close` never
sets `s.res` to nil.  Evaluated at concrete handles 3 and 7. -/
theorem closeCloseStmtReleasesAgain :
    (connClose (connClose ⟨some 3, 0, true⟩).1).2 = []
    ∧ (rowsClose (rowsClose (newResult [] 0 7)).1).2 = []
    ∧ (stmtClose (stmtClose ⟨"0", some 7, 2, true⟩).1).2 = [7] := by
  refine ⟨rfl, rfl, rfl⟩

/-- Claim C5 (code bug): when the prepare step succeeds and the describe
step fails, `Prepare` returns the command error but releases only the
describe handle (11); the prepare step's result handle (10) is not in the
released list.  The first conjunct shows the prepare-failure path does
release the prepare handle. -/
theorem prepareDescribeFailureLeaksPrepareHandle :
    (prepare ⟨some 1, 0, true⟩ ⟨"oops", "", 0⟩ 10 11).2.2 = [10]
    ∧ (prepare ⟨some 1, 0, true⟩ ⟨"", "boom", 0⟩ 10 11).2.1 =
        .error "result error: boom"
    ∧ (prepare ⟨some 1, 0, true⟩ ⟨"", "boom", 0⟩ 10 11).2.2 = [11]
    ∧ 10 ∉ (prepare ⟨some 1, 0, true⟩ ⟨"", "boom", 0⟩ 10 11).2.2 := by
  refine ⟨rfl, rfl, rfl, by decide⟩

/-- Claim C7: `driverConn.Exec` returns the command error (carrying the
server diagnostic) and releases the result handle when the server reports an
error; returns `DDLSuccess` when the command succeeds with an empty
`PQcmdTuples` text; and returns `RowsAffected n` when the command succeeds
and the count text parses as `n`.  The handle is released on every path. -/
theorem connExecBehaviour (resp : ExecResponse) (h : Nat) :
    (resp.errMsg ≠ "" →
      connExec resp h = (.error ("result error: " ++ resp.errMsg), [h]))
    ∧ (resp.errMsg = "" → resp.cmdTuples = "" →
      connExec resp h = (.ok .ddlSuccess, [h]))
    ∧ (∀ n : Int, resp.errMsg = "" → atoi64 resp.cmdTuples = .ok n →
      connExec resp h = (.ok (.rowsAffected n), [h])) := by
  refine ⟨?_, ?_, ?_⟩
  · intro hne
    simp [connExec, resultError, hne]
  · intro he hc
    simp [connExec, resultError, he, hc]
  · intro n he ha
    have hc : resp.cmdTuples ≠ "" := by
      intro h0
      have hempty : atoi64 "" = Except.error "parsing : invalid syntax" := rfl
      rw [h0, hempty] at ha
      exact Except.noConfusion ha
    simp [connExec, resultError, he, hc, ha]

/-- Witness for C7: the three paths at concrete responses. -/
theorem connExecBehaviour_witness :
    connExec ⟨"boom", ""⟩ 5 = (.error "result error: boom", [5])
    ∧ connExec ⟨"", ""⟩ 5 = (.ok .ddlSuccess, [5])
    ∧ connExec ⟨"", "3"⟩ 5 = (.ok (.rowsAffected 3), [5]) :=
  ⟨(connExecBehaviour ⟨"boom", ""⟩ 5).1 (by simp),
   (connExecBehaviour ⟨"", ""⟩ 5).2.1 rfl rfl,
   (connExecBehaviour ⟨"", "3"⟩ 5).2.2 3 rfl rfl⟩

/-- Claim C10: on a successful command whose `PQcmdTuples` text is empty,
`driverStmt.Exec` returns the count-conversion error (it parses the empty
string with `strconv.Atoi64` unconditionally), while `driverConn.Exec` in
the same situation returns the `DDLSuccess` sentinel. -/
theorem stmtExecEmptyCountErrors (resp : ExecResponse) (h : Nat)
    (he : resp.errMsg = "") (hc : resp.cmdTuples = "") :
    stmtExec resp h = (.error "parsing : invalid syntax", [h])
    ∧ connExec resp h = (.ok .ddlSuccess, [h]) := by
  have hr : resp = ⟨"", ""⟩ := by
    cases resp
    simp_all
  rw [hr]
  exact ⟨rfl, rfl⟩

/-- Witness for C10 at the empty response and handle 4. -/
theorem stmtExecEmptyCountErrors_witness :
    stmtExec ⟨"", ""⟩ 4 = (.error "parsing : invalid syntax", [4])
    ∧ connExec ⟨"", ""⟩ 4 = (.ok .ddlSuccess, [4]) :=
  stmtExecEmptyCountErrors ⟨"", ""⟩ 4 rfl rfl

/-- One `Next` call changes the `driverRows` struct only by incrementing the
cursor, whatever the outcome. -/
theorem next_fst (r : DriverRows) (dest : List GoValue) :
    (next r dest).1 = { r with currRow := r.currRow + 1 } := by
  unfold next
  dsimp only
  split
  · rfl
  · split <;> rfl

/-- After `m` `Next` calls the struct is the original with the cursor
advanced by `m`. -/
theorem stepN_eq (dest : List GoValue) (m : Nat) (r : DriverRows) :
    stepN dest m r = { r with currRow := r.currRow + m } := by
  induction m generalizing r with
  | zero =>
    cases r
    simp [stepN]
  | succ k ih =>
    rw [stepN, next_fst, ih]
    cases r
    simp
    ring

/-- Claim C3: on a ResultSet materialized with `n` rows whose cells all
decode, each of the first `n` `Next` calls succeeds, and every call from the
`(n+1)`th on returns the end-of-data sentinel, not an error. -/
theorem cursorExhaustion (data : List (List Cell)) (ncols h : Nat)
    (dest : List GoValue)
    (hdec : ∀ row ∈ data, (decodeCells 0 row dest).2 = none) (m : Nat) :
    (m < data.length →
      (next (stepN dest m (newResult data ncols h).r) dest).2.2 =
        NextStatus.ok)
    ∧ (data.length ≤ m →
      (next (stepN dest m (newResult data ncols h).r) dest).2.2 =
        NextStatus.eof) := by
  rw [stepN_eq]
  constructor
  · intro hm
    have hrow : data.getD m [] ∈ data := by
      rw [List.getD_eq_getElem data [] hm]
      exact List.getElem_mem hm
    have hd := hdec _ hrow
    simp only [next, newResult]
    rw [if_neg (by omega)]
    have hidx : ((-1 : Int) + (m : Int) + 1) = (m : Int) := by ring
    simp only [hidx, Int.toNat_natCast, hd]
  · intro hm
    simp only [next, newResult]
    rw [if_pos (by omega)]

/-- Witness for C3: one decodable row; call 1 delivers it, calls 2 and 6
return end-of-data. -/
theorem cursorExhaustion_witness :
    (next (stepN [GoValue.goNil] 0
        (newResult [[⟨false, ['a'], TEXTOID⟩]] 1 9).r) [GoValue.goNil]).2.2 =
      NextStatus.ok
    ∧ (next (stepN [GoValue.goNil] 1
        (newResult [[⟨false, ['a'], TEXTOID⟩]] 1 9).r) [GoValue.goNil]).2.2 =
      NextStatus.eof
    ∧ (next (stepN [GoValue.goNil] 5
        (newResult [[⟨false, ['a'], TEXTOID⟩]] 1 9).r) [GoValue.goNil]).2.2 =
      NextStatus.eof :=
  ⟨(cursorExhaustion _ 1 9 _ (by decide) 0).1 (by decide),
   (cursorExhaustion _ 1 9 _ (by decide) 1).2 (by decide),
   (cursorExhaustion _ 1 9 _ (by decide) 5).2 (by decide)⟩

/-- Counterexample to C4 as stated: after two `Next` calls on an empty
ResultSet the cursor field holds 1, which exceeds the materialized row count
0 — the raw cursor is not bounded by the row count. -/
theorem cursorBound_counterexample :
    ¬ ((stepN [] 2 (newResult [] 0 7).r).currRow ≤
        (newResult [] 0 7).r.nrows) := by
  decide

/-- Claim C4 (amended): every `Next` call increments the cursor, so the
position is monotonically non-decreasing; whenever a call delivers a row the
cursor is strictly below the materialized row count; and any call made with
the cursor at or past the last row returns the end-of-data sentinel, not an
error.  (The raw cursor counter itself keeps incrementing on exhausted
calls, so it is not bounded by the row count.) -/
theorem cursorMonotone (r : DriverRows) (dest : List GoValue) :
    r.currRow ≤ (next r dest).1.currRow
    ∧ ((next r dest).2.2 = NextStatus.ok →
        (next r dest).1.currRow < r.nrows)
    ∧ (r.nrows ≤ r.currRow + 1 → (next r dest).2.2 = NextStatus.eof) := by
  refine ⟨?_, ?_, ?_⟩
  · rw [next_fst]
    dsimp only
    omega
  · intro hok
    rw [next_fst]
    dsimp only
    by_contra hlt
    have heof : (next r dest).2.2 = NextStatus.eof := by
      unfold next
      dsimp only
      rw [if_pos (by omega)]
    rw [heof] at hok
    exact NextStatus.noConfusion hok
  · intro hge
    unfold next
    dsimp only
    rw [if_pos (by omega)]

/-- Witness for C4's theorem: a one-row ResultSet; the first call delivers a
row with the cursor below the row count, the second call hits end-of-data. -/
theorem cursorMonotone_witness :
    ((newResult [[⟨true, [], 0⟩]] 1 3).r.currRow ≤
        (next (newResult [[⟨true, [], 0⟩]] 1 3).r []).1.currRow)
    ∧ (next (newResult [[⟨true, [], 0⟩]] 1 3).r []).1.currRow <
        (newResult [[⟨true, [], 0⟩]] 1 3).r.nrows
    ∧ (next (stepN [] 1 (newResult [[⟨true, [], 0⟩]] 1 3).r) []).2.2 =
        NextStatus.eof :=
  ⟨(cursorMonotone _ []).1,
   (cursorMonotone _ []).2.1 (by decide),
   (cursorMonotone _ []).2.2 (by decide)⟩

/-- When the destination loop reports an error `m`, some slot `k` is the
failing one: its cell decodes to `error m`, every slot from `k` on keeps its
previous contents, and every slot before `k` holds the value decoded from
its cell of the current row. -/
theorem decodeCells_err (row : List Cell) (dest : List GoValue) (i : Nat)
    (m : String) (h : (decodeCells i row dest).2 = some m) :
    ∃ k, k < dest.length
      ∧ decodeCell (i + k) (row.getD (i + k) defaultCell) = .error m
      ∧ (∀ j, k ≤ j →
          (decodeCells i row dest).1.getD j .goNil = dest.getD j .goNil)
      ∧ (∀ j, j < k →
          decodeCell (i + j) (row.getD (i + j) defaultCell) =
            .ok ((decodeCells i row dest).1.getD j .goNil)) := by
  induction dest generalizing i with
  | nil => simp [decodeCells] at h
  | cons d ds ih =>
    cases hd : decodeCell i (row.getD i defaultCell) with
    | ok v =>
      simp only [decodeCells, hd] at h ⊢
      obtain ⟨k, hk, hcell, hsuf, hpre⟩ := ih (i + 1) h
      refine ⟨k + 1, by simpa using Nat.succ_lt_succ hk, ?_, ?_, ?_⟩
      · have harith : i + (k + 1) = i + 1 + k := by ring
        rw [harith]
        exact hcell
      · intro j hj
        cases j with
        | zero => omega
        | succ j2 =>
          simp only [List.getD_cons_succ]
          exact hsuf j2 (by omega)
      · intro j hj
        cases j with
        | zero =>
          simp only [Nat.add_zero, List.getD_cons_zero]
          exact hd
        | succ j2 =>
          have harith : i + (j2 + 1) = i + 1 + j2 := by ring
          rw [harith]
          simp only [List.getD_cons_succ]
          exact hpre j2 (by omega)
    | error msg =>
      simp only [decodeCells, hd] at h ⊢
      have hm : msg = m := by simpa using h
      refine ⟨0, by simp, ?_, ?_, ?_⟩
      · rw [Nat.add_zero, hd, hm]
      · intro j hj
        trivial
      · intro j hj
        omega

/-- Counterexample to C8 as stated: a two-column row whose first cell is the
text `"a"` and whose second cell has the unsupported OID 999.  The `Next`
call fails, yet afterwards destination slot 0 holds `"a"` — a value decoded
from the current row — no longer its previous contents `"x"`. -/
theorem partialRow_counterexample :
    (next (newResult [[⟨false, ['a'], TEXTOID⟩, ⟨false, [], 999⟩]] 2 7).r
        [GoValue.str "x", GoValue.str "y"]).2 =
      ([GoValue.str "a", GoValue.str "y"],
        NextStatus.err "unsupported type oid: 999")
    ∧ GoValue.str "a" ≠ GoValue.str "x" := by
  refine ⟨rfl, by decide⟩

/-- Claim C8 (amended): when some cell of the current row fails to decode,
the whole `Next` call returns the decode error; the failing slot and every
later slot keep their previous contents, while the slots before the failing
cell hold the values decoded from the current row (the row is only
partially written, never delivered as a success). -/
theorem decodeFailureAborts (r : DriverRows) (dest : List GoValue)
    (m : String) (h : (next r dest).2.2 = NextStatus.err m) :
    ∃ k, k < dest.length
      ∧ decodeCell k
          ((r.rows.getD (r.currRow + 1).toNat []).getD k defaultCell) =
          .error m
      ∧ (∀ j, k ≤ j →
          ((next r dest).2.1).getD j .goNil = dest.getD j .goNil)
      ∧ (∀ j, j < k →
          decodeCell j
            ((r.rows.getD (r.currRow + 1).toNat []).getD j defaultCell) =
            .ok (((next r dest).2.1).getD j .goNil)) := by
  by_cases hc : r.currRow + 1 ≥ r.nrows
  · exfalso
    have heof : (next r dest).2.2 = NextStatus.eof := by
      unfold next
      dsimp only
      rw [if_pos hc]
    rw [heof] at h
    exact NextStatus.noConfusion h
  · have hnext : next r dest =
        ({ r with currRow := r.currRow + 1 },
          (decodeCells 0 (r.rows.getD (r.currRow + 1).toNat []) dest).1,
          match (decodeCells 0 (r.rows.getD (r.currRow + 1).toNat []) dest).2 with
          | none => NextStatus.ok
          | some m2 => NextStatus.err m2) := by
      unfold next
      dsimp only
      rw [if_neg hc]
      cases (decodeCells 0 (r.rows.getD (r.currRow + 1).toNat []) dest).2 <;> rfl
    rw [hnext] at h ⊢
    dsimp only at h ⊢
    cases ho : (decodeCells 0 (r.rows.getD (r.currRow + 1).toNat []) dest).2 with
    | none =>
      rw [ho] at h
      exact absurd h (by simp)
    | some m2 =>
      rw [ho] at h
      have hm : m2 = m := by
        simpa using h
      subst hm
      obtain ⟨k, hk, hcell, hsuf, hpre⟩ :=
        decodeCells_err (r.rows.getD (r.currRow + 1).toNat []) dest 0 m2 ho
      exact ⟨k, hk, by simpa using hcell, hsuf, fun j hj => by simpa using hpre j hj⟩

/-- Witness for C8's theorem at the counterexample row: the failing slot is
slot 1, slot 1 keeps `"y"`, and slot 0 holds the decoded `"a"`. -/
theorem decodeFailureAborts_witness :
    ∃ k, k < ([GoValue.str "x", GoValue.str "y"] : List GoValue).length
      ∧ decodeCell k
          (((newResult [[⟨false, ['a'], TEXTOID⟩, ⟨false, [], 999⟩]] 2 7).r.rows.getD
              ((newResult [[⟨false, ['a'], TEXTOID⟩, ⟨false, [], 999⟩]] 2 7).r.currRow + 1).toNat
              []).getD k defaultCell) =
          .error "unsupported type oid: 999"
      ∧ (∀ j, k ≤ j →
          ((next (newResult [[⟨false, ['a'], TEXTOID⟩, ⟨false, [], 999⟩]] 2 7).r
              [GoValue.str "x", GoValue.str "y"]).2.1).getD j .goNil =
            ([GoValue.str "x", GoValue.str "y"] : List GoValue).getD j .goNil)
      ∧ (∀ j, j < k →
          decodeCell j
            (((newResult [[⟨false, ['a'], TEXTOID⟩, ⟨false, [], 999⟩]] 2 7).r.rows.getD
                ((newResult [[⟨false, ['a'], TEXTOID⟩, ⟨false, [], 999⟩]] 2 7).r.currRow + 1).toNat
                []).getD j defaultCell) =
            .ok (((next (newResult [[⟨false, ['a'], TEXTOID⟩, ⟨false, [], 999⟩]] 2 7).r
                [GoValue.str "x", GoValue.str "y"]).2.1).getD j .goNil)) :=
  decodeFailureAborts (newResult [[⟨false, ['a'], TEXTOID⟩, ⟨false, [], 999⟩]] 2 7).r
    [GoValue.str "x", GoValue.str "y"] "unsupported type oid: 999" rfl

end PgDriver
